import Mathlib

/-!
Verification of `CreateMPMDMetadata.py` (Cura post-processing plugin that
embeds an SJPG thumbnail and print metadata into a gcode document).

Shallow embedding conventions:
* Python strings are modelled as `List Char`; byte strings as `List Nat`
  (each entry intended `< 256`).
* Python `int.to_bytes(2, "little")` raises `OverflowError` for values
  `≥ 2^16`; this is modelled by `toBytesLE2 : Nat → Option (List Nat)`.
* The per-strip JPEG compression (`QImage.copy` + `QImage.save` into a
  `QBuffer`) is an external black box; it is modelled as an oracle
  `save : Crop → Nat → Option (List Nat)` mapping the crop rectangle and the
  quality setting to the compressed bytes (`none` models an exception
  raised during compression, which `_convertImageToSJPG` catches).
* Caught-and-logged exceptions that make a helper return `None` are
  modelled by `Option`; exceptions that escape `execute` are modelled by
  `Except PyErr`.
-/

/-- Python exceptions that can escape `execute` in the modelled fragment. -/
inductive PyErr where
  | valueError
  | nameError
  | typeError
  | indexError
  deriving DecidableEq, Repr

/-- Shorthand: the characters of a Lean string literal (Python `str`). -/
def str (s : String) : List Char := s.toList

/-- Python `line.startswith(p)`: `p` is a prefix of `s`. -/
def strStartsWith : List Char → List Char → Bool
  | _, [] => true
  | [], _ :: _ => false
  | c :: s, d :: p => c = d && strStartsWith s p

/-- Python `list.index(a)`: index of the first occurrence of `a`
(`l.length` when absent; in the modelled code it is only called on
members). -/
def pyIndex [DecidableEq α] (a : α) : List α → Nat
  | [] => 0
  | b :: r => if b = a then 0 else pyIndex a r + 1

/-- Python `list.insert(k, x)`: insert `x` before position `k`
(appends when `k ≥ length`, as in Python). -/
def pyInsert (k : Nat) (x : α) (l : List α) : List α :=
  l.take k ++ x :: l.drop k

/-- Python slice assignment `l[k:k] = xs`: splice `xs` in before position
`k`. -/
def pySpliceAt (k : Nat) (xs l : List α) : List α :=
  l.take k ++ xs ++ l.drop k

/-- Python `s.split("\n")` (with an explicit separator): always returns at
least one piece; empty pieces are kept. -/
def splitNl : List Char → List (List Char)
  | [] => [[]]
  | c :: rest =>
    if c = '\n' then [] :: splitNl rest
    else
      match splitNl rest with
      | [] => [[c]]
      | l :: ls => (c :: l) :: ls

/-- Python `"\n".join(lines)`. -/
def joinNl (lines : List (List Char)) : List Char :=
  List.intercalate ['\n'] lines

/-- `SJPG_FILE_FORMAT_VERSION = "V1.00"` from the source. -/
def SJPG_FILE_FORMAT_VERSION : String := "V1.00"

/-- `THUMBNAIL_WIDTH = 140` from the source. -/
def THUMBNAIL_WIDTH : Nat := 140

/-- `THUMBNAIL_HEIGHT = 140` from the source. -/
def THUMBNAIL_HEIGHT : Nat := 140

/-- Python `n.to_bytes(2, byteorder="little")`: two bytes, little endian;
raises `OverflowError` (here: `none`) when `n ≥ 2^16`. -/
def toBytesLE2 (n : Nat) : Option (List Nat) :=
  if n < 65536 then some [n % 256, n / 256] else none

/-- UTF-8 bytes of an ASCII string literal (all literals in the source are
ASCII, so code points and bytes coincide). -/
def strBytes (s : String) : List Nat := s.toList.map Char.toNat

/-- The rectangle handed to `snapshot.copy(x, y, w, h)` for one strip. -/
structure Crop where
  x : Nat
  y : Nat
  w : Nat
  h : Nat
  deriving DecidableEq, Repr

/-- The crop rectangles of `_convertImageToSJPG`'s strip loop, in order:
for `i in range(ceil(height / fragment_height))` the crop is
`(0, i * F, width, min(row_remaining, F))` with
`row_remaining = height - i * F`.  (`row_remaining` is positive whenever
the loop body runs, so Nat subtraction agrees with the Python value.) -/
def stripCrops (width height F : Nat) : List Crop :=
  (List.range ((height + F - 1) / F)).map
    (fun i => ⟨0, i * F, width, min (height - i * F) F⟩)

/-- `_convertImageToSJPG`: build the SJPG container.  `save c q` is the
compression oracle (bytes left in the `QBuffer` after
`crop.save(..., quality=q)`); `none` models an exception during
compression, which the source's `except` turns into a `None` return —
as does an `OverflowError` from any `to_bytes` call.
(The source computes `parts = math.ceil(height / fragment_height)`; for
`fragment_height = 0` Python would raise `ZeroDivisionError`, so callers
assume `0 < fragment_height`.) -/
def convertImageToSJPG (save : Crop → Nat → Option (List Nat))
    (width height quality fragment_height : Nat) : Option (List Nat) :=
  let parts := (height + fragment_height - 1) / fragment_height
  match (stripCrops width height fragment_height).mapM
      (fun c => save c quality) with
  | none => none
  | some payloads =>
    let lenbuf := payloads.map List.length
    let sjpeg_data := payloads.flatten
    match toBytesLE2 width, toBytesLE2 height, toBytesLE2 parts,
        toBytesLE2 fragment_height, lenbuf.mapM toBytesLE2 with
    | some wb, some hb, some pb, some fb, some lens =>
      some (strBytes "_SJPG__"
        ++ strBytes ("\x00" ++ SJPG_FILE_FORMAT_VERSION ++ "\x00")
        ++ wb ++ hb ++ pb ++ fb ++ lens.flatten ++ sjpeg_data)
    | _, _, _, _, _ => none

/-- The 16 lowercase hex symbols (`base64.b16encode` emits uppercase; the
source immediately applies `.lower()`). -/
def HEX_ALPHABET : List Char := "0123456789abcdef".toList

/-- Lowercase hex digit of a value `< 16`. -/
def hexDigit (n : Nat) : Char := HEX_ALPHABET.getD n '?'

/-- `base64.b16encode(bs).decode("ascii").lower()` on a byte string. -/
def hexEncode (bs : List Nat) : List Char :=
  bs.flatMap (fun b => [hexDigit (b / 16), hexDigit (b % 16)])

/-- Value of a lowercase hex digit (used to state the round-trip law). -/
def hexVal (c : Char) : Nat :=
  if c ≤ '9' then c.toNat - 48 else c.toNat - 87

/-- Hex-decoding, pairwise inverse of `hexEncode`. -/
def hexDecode : List Char → List Nat
  | a :: b :: rest => (16 * hexVal a + hexVal b) :: hexDecode rest
  | _ => []

/-- `_encodeSnapshot`: `b16encode(None)` raises `TypeError`, which the
source catches and turns into a `None` return. -/
def encodeSnapshot : Option (List Nat) → Option (List Char)
  | none => none
  | some bs => some (hexEncode bs)

/-- Python `[s[i:i+k] for i in range(0, len(s), k)]` for `k > 0`
(`k = 0` would raise `ValueError` in `range`; the source only uses
`chunk_size = 80`). -/
def chunksOf (k : Nat) : List Char → List (List Char)
  | [] => []
  | c :: rest =>
    if k = 0 then [] else (c :: rest).take k :: chunksOf k ((c :: rest).drop k)
  termination_by s => s.length
  decreasing_by
    simp only [List.length_drop, List.length_cons]
    omega

/-- `_convertSnapshotToGcode`: wrap the hex string in the W221/W220/W222
sentinel block.  Receiving `None` (encoding failed upstream) makes the
source raise an uncaught `TypeError` at `len(encoded_snapshot)`. -/
def convertSnapshotToGcode (encoded : Option (List Char)) (chunk_size : Nat) :
    Except PyErr (List (List Char)) :=
  match encoded with
  | none => .error .typeError
  | some s =>
    .ok ([str "; thumbnail begin", str "W221"]
      ++ (chunksOf chunk_size s).map (fun c => str "W220 " ++ c)
      ++ [str "W222", str "; thumbnail end", str ""])

/-- Python `line.rsplit(" ", 1)[1]`: the part after the last space.  When
the line has no space, `rsplit` returns a single piece and the `[1]`
subscript raises `IndexError` (modelled by `none`); every line carrying
the filament marker contains spaces, so this branch is unreachable in the
source. -/
def pyRsplitLast (s : List Char) : Option (List Char) :=
  if ' ' ∈ s then some ((s.reverse.takeWhile (fun c => c != ' ')).reverse)
  else none

/-- Value of a digit string, most significant first. -/
def digitsToNat (ds : List Char) : Nat :=
  ds.foldl (fun a c => 10 * a + (c.toNat - 48)) 0

/-- The exact value of a parsed Python float, kept as the unreduced
decimal fraction `num / den` with `den` a positive power of ten.  All
values the claims exercise are exactly representable in binary floating
point, so exact fraction arithmetic coincides with Python's float
arithmetic on them. -/
structure DecVal where
  num : ℤ
  den : Nat
  deriving DecidableEq, Repr

/-- `d * n` for an integer `n` (used for the metres → millimetres
conversion `amount_m * 1000`). -/
def decValMul (d : DecVal) (n : ℤ) : DecVal := ⟨d.num * n, d.den⟩

/-- Modelled from Python `float(s)`, restricted to plain decimal literals
(optional sign, integer digits, optional `.` and fraction digits) — the
only shapes the verified claims exercise.  Any other string (e.g.
`"N/A"`) raises `ValueError` in Python, modelled by `none`. -/
def parsePyFloat (s : List Char) : Option DecVal :=
  let signed : ℤ × List Char :=
    match s with
    | '-' :: r => (-1, r)
    | '+' :: r => (1, r)
    | _ => (1, s)
  let sgn := signed.1
  let t := signed.2
  let ip := t.takeWhile (fun c => c != '.')
  match t.drop ip.length with
  | [] =>
    if ip ≠ [] ∧ ip.all Char.isDigit then some ⟨sgn * digitsToNat ip, 1⟩
    else none
  | '.' :: fp =>
    if (ip ≠ [] ∨ fp ≠ []) ∧ ip.all Char.isDigit ∧ fp.all Char.isDigit then
      some ⟨sgn * (digitsToNat ip * 10 ^ fp.length + digitsToNat fp),
        10 ^ fp.length⟩
    else none
  | _ => none

/-- Banker's rounding of `a / b` (with `b > 0`) to an integer (Python
renders binary floats with round-half-even). -/
def roundHalfEven (a : ℤ) (b : Nat) : ℤ :=
  let f := a.ediv b
  let r := a.emod b
  if 2 * r < b then f
  else if (b : ℤ) < 2 * r then f + 1
  else if f % 2 = 0 then f else f + 1

/-- Decimal digits of a natural number. -/
def natToChars (n : Nat) : List Char := Nat.toDigits 10 n

/-- Two decimal digits with a leading zero when needed. -/
def pad2 (n : Nat) : List Char :=
  if n < 10 then '0' :: natToChars n else natToChars n

/-- Modelled from Python `f"{x:.2f}"` on values where the binary float is
exact (the claims only use such values): fixed-point with two decimals,
round half even. -/
def format2f (d : DecVal) : List Char :=
  let h := roundHalfEven (d.num * 100) d.den
  (if h < 0 then ['-'] else [])
    ++ natToChars (h.natAbs / 100) ++ '.' :: pad2 (h.natAbs % 100)

/-- The filament-usage marker literal `";Filament used: "`. -/
def FILAMENT_MARK : List Char := str ";Filament used: "

/-- The generator-signature marker literal `";Generated with Cura"`. -/
def CURA_MARK : List Char := str ";Generated with Cura"

/-- Number of lines carrying the filament-usage marker (the termination
measure of the scanning loop: processing a marker consumes it). -/
def countFil (lines : List (List Char)) : Nat :=
  lines.countP (fun l => strStartsWith l FILAMENT_MARK)

/-- A usage line `";FilamentUsed:" + t` never carries the filament marker
(the texts differ at index 9). -/
theorem not_fil_usage (t : List Char) :
    strStartsWith (str ";FilamentUsed:" ++ t) FILAMENT_MARK = false := rfl

/-- A material line `";FilamentType:" + t` never carries the filament
marker. -/
theorem not_fil_material (t : List Char) :
    strStartsWith (str ";FilamentType:" ++ t) FILAMENT_MARK = false := rfl

/-- An infill line `";InfillDensity:" + t` never carries the filament
marker. -/
theorem not_fil_infill (t : List Char) :
    strStartsWith (str ";InfillDensity:" ++ t) FILAMENT_MARK = false := rfl

/-- A usage line never carries the generator marker. -/
theorem not_cura_usage (t : List Char) :
    strStartsWith (str ";FilamentUsed:" ++ t) CURA_MARK = false := rfl

/-- A material line never carries the generator marker. -/
theorem not_cura_material (t : List Char) :
    strStartsWith (str ";FilamentType:" ++ t) CURA_MARK = false := rfl

/-- An infill line never carries the generator marker. -/
theorem not_cura_infill (t : List Char) :
    strStartsWith (str ";InfillDensity:" ++ t) CURA_MARK = false := rfl

theorem pyIndex_lt_length [DecidableEq α] {a : α} {l : List α} (h : a ∈ l) :
    pyIndex a l < l.length := by
  induction l with
  | nil => cases h
  | cons b r ih =>
    by_cases hb : b = a
    · simp [pyIndex, hb]
    · cases h with
      | head => exact absurd rfl hb
      | tail _ h2 => simpa [pyIndex, hb] using ih h2

theorem getElem?_pyIndex [DecidableEq α] {a : α} {l : List α} (h : a ∈ l) :
    l[pyIndex a l]? = some a := by
  induction l with
  | nil => cases h
  | cons b r ih =>
    by_cases hb : b = a
    · simp [pyIndex, hb]
    · cases h with
      | head => exact absurd rfl hb
      | tail _ h2 => simpa [pyIndex, hb] using ih h2

theorem length_pyInsert (k : Nat) (x : α) (l : List α) :
    (pyInsert k x l).length = l.length + 1 := by
  simp [pyInsert]
  omega

theorem countFil_pyInsert {x : List Char}
    (hx : strStartsWith x FILAMENT_MARK = false) (k : Nat)
    (l : List (List Char)) : countFil (pyInsert k x l) = countFil l := by
  unfold countFil pyInsert
  simp [List.countP_append, List.countP_cons, hx]
  rw [← List.countP_append, List.take_append_drop]

theorem countFil_set {l : List (List Char)} {k : Nat} {x : List Char}
    (hk : k < l.length)
    (hget : strStartsWith l[k] FILAMENT_MARK = true)
    (hx : strStartsWith x FILAMENT_MARK = false) :
    countFil (l.set k x) + 1 = countFil l := by
  induction l generalizing k with
  | nil => simp at hk
  | cons b r ih =>
    cases k with
    | zero =>
      simp only [List.getElem_cons_zero] at hget
      simp [countFil, List.countP_cons, hget, hx]
    | succ k =>
      simp only [List.getElem_cons_succ] at hget
      have := ih (by simpa using hk) hget
      simp only [List.set_cons_succ, countFil, List.countP_cons] at this ⊢
      omega

/-- The body of the first `if` of `execute`'s line loop (lines 203-209 of
the source): on a filament-usage marker, look the line up by content,
parse the trailing amount, convert metres to millimetres, replace the
marker line by the usage line, and insert the material and infill lines
before it.  `settings = none` models the path where the source's settings
`try` block failed, so `material` / `infill_density` were never assigned
and their first use raises `UnboundLocalError` (a `NameError`). -/
def filamentStep (settings : Option (List Char × List Char)) (line : List Char)
    (lines : List (List Char)) : Except PyErr (List (List Char)) :=
  if strStartsWith line FILAMENT_MARK then
    let k := pyIndex line lines
    match pyRsplitLast line with
    | none => .error .indexError
    | some tok =>
      match parsePyFloat (tok.filter (fun c => c != 'm')) with
      | none => .error .valueError
      | some amount_m =>
        let amount_mm := decValMul amount_m 1000
        let lines1 := lines.set k (str ";FilamentUsed:" ++ format2f amount_mm)
        match settings with
        | none => .error .nameError
        | some md =>
          .ok (pyInsert k (str ";InfillDensity:" ++ md.2)
            (pyInsert k (str ";FilamentType:" ++ md.1) lines1))
  else .ok lines

/-- A successful `filamentStep` either left the lines alone (no marker) or
consumed one marker line while growing the list by two. -/
theorem filamentStep_ok {s : Option (List Char × List Char)}
    {line : List Char} {lines lines1 : List (List Char)} (hmem : line ∈ lines)
    (h : filamentStep s line lines = .ok lines1) :
    (strStartsWith line FILAMENT_MARK = false ∧ lines1 = lines) ∨
    (strStartsWith line FILAMENT_MARK = true ∧
      lines1.length = lines.length + 2 ∧ countFil lines1 + 1 = countFil lines) := by
  unfold filamentStep at h
  by_cases hf : strStartsWith line FILAMENT_MARK = true
  · right
    rw [if_pos hf] at h
    refine ⟨hf, ?_⟩
    dsimp only at h
    split at h
    · cases h
    · split at h
      · cases h
      · split at h
        · cases h
        · cases h
          have hk : pyIndex line lines < lines.length := pyIndex_lt_length hmem
          have hget : lines[pyIndex line lines] = line := by
            have h2 := getElem?_pyIndex hmem
            rwa [List.getElem?_eq_getElem hk, Option.some_inj] at h2
          constructor
          · simp [length_pyInsert, List.length_set]
          · rw [countFil_pyInsert (not_fil_infill _),
              countFil_pyInsert (not_fil_material _)]
            refine countFil_set hk ?_ (not_fil_usage _)
            rw [hget]
            exact hf
  · left
    rw [if_neg hf] at h
    cases h
    exact ⟨by simpa using hf, rfl⟩

/-- The `for line in lines` loop of `execute` (source lines 202-214),
iterating with the live-list index semantics of a Python list iterator:
position `i` is read from the current list, the filament branch may grow
the list in place, and the generator branch splices the thumbnail block
after the marker and then `break`s out of the loop for this segment. -/
def scanLines (s : Option (List Char × List Char)) (g : List (List Char))
    (i : Nat) (lines : List (List Char)) : Except PyErr (List (List Char)) :=
  if h : i < lines.length then
    let line := lines[i]
    match hstep : filamentStep s line lines with
    | .error e => .error e
    | .ok lines1 =>
      if strStartsWith line CURA_MARK then
        .ok (pySpliceAt (pyIndex line lines1 + 1) g lines1)
      else scanLines s g (i + 1) lines1
  else .ok lines
  termination_by 2 * countFil lines + (lines.length - i)
  decreasing_by
    rcases filamentStep_ok (lines.getElem_mem h) hstep with ⟨_, rfl⟩ | ⟨_, h1, h2⟩
    · omega
    · omega

/-- The `for layer in data` loop of `execute` (source lines 199-217):
`layer_index = data.index(layer)` re-derives the position by content, the
segment is split on newlines, scanned, and the rejoined text is written
back to `data[layer_index]`.  (`data[layer_index]` equals `layer` by the
definition of `list.index`, so the split is taken of `layer` itself.) -/
def executeLoop (s : Option (List Char × List Char)) (g : List (List Char))
    (i : Nat) (data : List (List Char)) : Except PyErr (List (List Char)) :=
  if h : i < data.length then
    let layer := data[i]
    let j := pyIndex layer data
    match scanLines s g 0 (splitNl layer) with
    | .error e => .error e
    | .ok newLines => executeLoop s g (i + 1) (data.set j (joinNl newLines))
  else .ok data
  termination_by data.length - i
  decreasing_by
    simp only [List.length_set]
    omega

/-- `execute(self, data)` with the external collaborators as parameters:
`settings` is `some (material, infill_density)` when the settings `try`
block succeeded (both values already rendered to text as the f-strings
would) and `none` when it raised and was only logged; `snapshot` is the
result of `_createSnapshot` (`none` when `Snapshot.snapshot` raised);
`save` is the per-strip compression oracle; `quality` is the plugin's
quality setting; `data` is the list of layer-text segments. -/
def execute (settings : Option (List Char × List Char))
    (snapshot : Option Unit) (save : Crop → Nat → Option (List Nat))
    (quality : Nat) (data : List (List Char)) :
    Except PyErr (List (List Char)) :=
  match snapshot with
  | none => .ok data
  | some _ =>
    match convertSnapshotToGcode
        (encodeSnapshot
          (convertImageToSJPG save THUMBNAIL_WIDTH THUMBNAIL_HEIGHT quality 16))
        80 with
    | .error e => .error e
    | .ok snapshot_gcode => executeLoop settings snapshot_gcode 0 data

/-- `strStartsWith` is list-prefix. -/
theorem strStartsWith_iff {p s : List Char} :
    strStartsWith s p = true ↔ ∃ t, s = p ++ t := by
  induction p generalizing s with
  | nil => simp [strStartsWith]
  | cons d p ih =>
    cases s with
    | nil => simp [strStartsWith]
    | cons c s =>
      simp only [strStartsWith, Bool.and_eq_true, decide_eq_true_eq, ih,
        List.cons_append, List.cons.injEq]
      constructor
      · rintro ⟨rfl, t, rfl⟩
        exact ⟨t, rfl, rfl⟩
      · rintro ⟨t, rfl, rfl⟩
        exact ⟨rfl, t, rfl⟩

/-- A line carrying the filament marker does not carry the generator
marker (the markers differ at index 1). -/
theorem fil_not_cura {l : List Char}
    (hf : strStartsWith l FILAMENT_MARK = true) :
    strStartsWith l CURA_MARK = false := by
  obtain ⟨t, rfl⟩ := strStartsWith_iff.mp hf
  rfl

/-- A line carrying the generator marker does not carry the filament
marker. -/
theorem cura_not_fil {l : List Char}
    (hc : strStartsWith l CURA_MARK = true) :
    strStartsWith l FILAMENT_MARK = false := by
  obtain ⟨t, rfl⟩ := strStartsWith_iff.mp hc
  rfl

/-- `filamentStep` on a line without the filament marker is a no-op. -/
theorem filamentStep_no {s : Option (List Char × List Char)}
    {line : List Char} (lines : List (List Char))
    (hf : strStartsWith line FILAMENT_MARK = false) :
    filamentStep s line lines = .ok lines := by
  unfold filamentStep
  rw [hf]
  rfl

/-- The scan loop past the end of the line list returns the lines. -/
theorem scanLines_stop {s : Option (List Char × List Char)}
    {g : List (List Char)} {i : Nat} {lines : List (List Char)}
    (h : lines.length ≤ i) :
    scanLines s g i lines = .ok lines := by
  rw [scanLines]
  rw [dif_neg (by omega)]

/-- One scan step on a line carrying neither marker. -/
theorem scanLines_step_skip {s : Option (List Char × List Char)}
    {g : List (List Char)} {i : Nat} {lines : List (List Char)}
    (h : i < lines.length)
    (hf : strStartsWith lines[i] FILAMENT_MARK = false)
    (hc : strStartsWith lines[i] CURA_MARK = false) :
    scanLines s g i lines = scanLines s g (i + 1) lines := by
  rw [scanLines]
  rw [dif_pos h]
  dsimp only
  split
  · next e heq => rw [filamentStep_no lines hf] at heq; cases heq
  · next l1 heq =>
    rw [filamentStep_no lines hf] at heq
    injection heq with h2
    subst h2
    rw [hc]
    simp

/-- One scan step on a line carrying the generator marker: the thumbnail
block is spliced in right after the first line with the same text, and the
scan of this segment stops (`break`). -/
theorem scanLines_step_cura {s : Option (List Char × List Char)}
    {g : List (List Char)} {i : Nat} {lines : List (List Char)}
    (h : i < lines.length)
    (hc : strStartsWith lines[i] CURA_MARK = true) :
    scanLines s g i lines =
      .ok (pySpliceAt (pyIndex lines[i] lines + 1) g lines) := by
  rw [scanLines]
  rw [dif_pos h]
  dsimp only
  split
  · next e heq => rw [filamentStep_no lines (cura_not_fil hc)] at heq; cases heq
  · next l1 heq =>
    rw [filamentStep_no lines (cura_not_fil hc)] at heq
    injection heq with h2
    subst h2
    rw [hc]
    simp

/-- One scan step on a line carrying the filament marker whose
`filamentStep` succeeds: the loop continues at `i + 1` on the mutated
list. -/
theorem scanLines_step_fil {s : Option (List Char × List Char)}
    {g : List (List Char)} {i : Nat} {lines lines1 : List (List Char)}
    (h : i < lines.length)
    (hf : strStartsWith lines[i] FILAMENT_MARK = true)
    (hstep : filamentStep s lines[i] lines = .ok lines1) :
    scanLines s g i lines = scanLines s g (i + 1) lines1 := by
  rw [scanLines]
  rw [dif_pos h]
  dsimp only
  split
  · next e heq => rw [hstep] at heq; cases heq
  · next l1 heq =>
    rw [hstep] at heq
    injection heq with h2
    subst h2
    rw [fil_not_cura hf]
    simp

/-- One scan step where `filamentStep` raises: the exception propagates
out of the loop. -/
theorem scanLines_step_err {s : Option (List Char × List Char)}
    {g : List (List Char)} {i : Nat} {lines : List (List Char)} {e : PyErr}
    (h : i < lines.length)
    (hstep : filamentStep s lines[i] lines = .error e) :
    scanLines s g i lines = .error e := by
  rw [scanLines]
  rw [dif_pos h]
  dsimp only
  split
  · next e2 heq =>
    rw [hstep] at heq
    injection heq with h2
    subst h2
    rfl
  · next l1 heq => rw [hstep] at heq; cases heq

theorem mapM_loop_some (f : α → Option β) (g : α → β) (l : List α)
    (acc : List β) (h : ∀ a ∈ l, f a = some (g a)) :
    List.mapM.loop f l acc = some (acc.reverse ++ l.map g) := by
  induction l generalizing acc with
  | nil => simp [List.mapM.loop]
  | cons a r ih =>
    simp [List.mapM.loop, h a (by simp),
      ih _ (fun x hx => h x (by simp [hx]))]

theorem mapM_some_of (f : α → Option β) (g : α → β) (l : List α)
    (h : ∀ a ∈ l, f a = some (g a)) : l.mapM f = some (l.map g) := by
  unfold List.mapM
  rw [mapM_loop_some f g l [] h]
  rfl

theorem mapM_option_map (f : α → β) (l : List α) :
    l.mapM (fun x => some (f x)) = some (l.map f) :=
  mapM_some_of _ f l (fun _ _ => rfl)

theorem mapM_toBytesLE2 {l : List Nat} (h : ∀ n ∈ l, n < 65536) :
    l.mapM toBytesLE2 = some (l.map (fun n => [n % 256, n / 256])) :=
  mapM_some_of _ _ l (fun n hn => by
    unfold toBytesLE2
    rw [if_pos (h n hn)])

theorem toBytesLE2_lt {n : Nat} (h : n < 65536) :
    toBytesLE2 n = some [n % 256, n / 256] := by
  unfold toBytesLE2
  rw [if_pos h]

/-- Helper: the container layout of a successful conversion (shared by
the layout and the length-table theorems). -/
theorem convertImageToSJPG_layout (save' : Crop → Nat → List Nat)
    (width height quality F : Nat) (hF : 0 < F)
    (hw : width < 65536) (hh : height < 65536)
    (hp : (height + F - 1) / F < 65536) (hFb : F < 65536)
    (hlen : ∀ c ∈ stripCrops width height F, (save' c quality).length < 65536) :
    convertImageToSJPG (fun c q => some (save' c q)) width height quality F =
      some (strBytes "_SJPG__"
        ++ ([0] ++ strBytes "V1.00" ++ [0])
        ++ [width % 256, width / 256]
        ++ [height % 256, height / 256]
        ++ [((height + F - 1) / F) % 256, ((height + F - 1) / F) / 256]
        ++ [F % 256, F / 256]
        ++ ((stripCrops width height F).map
            (fun c => [(save' c quality).length % 256,
              (save' c quality).length / 256])).flatten
        ++ ((stripCrops width height F).map (fun c => save' c quality)).flatten) := by
  have hlens : List.mapM toBytesLE2
      (List.map List.length (List.map (fun c => save' c quality)
        (stripCrops width height F))) =
      some (List.map (fun n => [n % 256, n / 256])
        (List.map List.length (List.map (fun c => save' c quality)
          (stripCrops width height F)))) := by
    apply mapM_toBytesLE2
    intro n hn
    simp only [List.mem_map] at hn
    obtain ⟨p, ⟨c, hc, rfl⟩, rfl⟩ := hn
    exact hlen c hc
  unfold convertImageToSJPG
  dsimp only
  rw [mapM_option_map (fun c => save' c quality)]
  dsimp only
  rw [hlens, toBytesLE2_lt hw, toBytesLE2_lt hh, toBytesLE2_lt hp,
    toBytesLE2_lt hFb]
  dsimp only
  have hver : strBytes ("\x00" ++ SJPG_FILE_FORMAT_VERSION ++ "\x00") =
      [0] ++ strBytes "V1.00" ++ [0] := rfl
  simp [hver, List.map_map, Function.comp]
  rfl

/-- C1: For every image (compression treated as a total oracle `save'`),
quality, and fragment height, the SJPG container produced by
`_convertImageToSJPG` is exactly: the 7-byte ASCII magic `"_SJPG__"`, the
version string `"V1.00"` delimited by one null byte on each side, the
width, height, strip count and fragment height as 2-byte little-endian
integers, one 2-byte little-endian length entry per strip in strip order,
and the compressed strip payloads concatenated in strip order.  The bounds
keep every `to_bytes(2, "little")` call from raising `OverflowError`
(which would abort the conversion), and `0 < F` keeps
`ceil(height / fragment_height)` from raising `ZeroDivisionError`. -/
theorem C1_container_layout (save' : Crop → Nat → List Nat)
    (width height quality F : Nat) (hF : 0 < F)
    (hw : width < 65536) (hh : height < 65536)
    (hp : (height + F - 1) / F < 65536) (hFb : F < 65536)
    (hlen : ∀ c ∈ stripCrops width height F, (save' c quality).length < 65536) :
    convertImageToSJPG (fun c q => some (save' c q)) width height quality F =
      some (strBytes "_SJPG__"
        ++ ([0] ++ strBytes "V1.00" ++ [0])
        ++ [width % 256, width / 256]
        ++ [height % 256, height / 256]
        ++ [((height + F - 1) / F) % 256, ((height + F - 1) / F) / 256]
        ++ [F % 256, F / 256]
        ++ ((stripCrops width height F).map
            (fun c => [(save' c quality).length % 256,
              (save' c quality).length / 256])).flatten
        ++ ((stripCrops width height F).map (fun c => save' c quality)).flatten) :=
  convertImageToSJPG_layout save' width height quality F hF hw hh hp hFb hlen

/-- Witness for C1 at a 140×140 image, quality 30, fragment height 16,
with a constant two-byte compression oracle. -/
theorem C1_container_layout_witness :
    convertImageToSJPG (fun c q => some [170, 11]) 140 140 30 16 =
      some (strBytes "_SJPG__"
        ++ ([0] ++ strBytes "V1.00" ++ [0])
        ++ [140 % 256, 140 / 256]
        ++ [140 % 256, 140 / 256]
        ++ [((140 + 16 - 1) / 16) % 256, ((140 + 16 - 1) / 16) / 256]
        ++ [16 % 256, 16 / 256]
        ++ ((stripCrops 140 140 16).map
            (fun c => [([170, 11] : List Nat).length % 256,
              ([170, 11] : List Nat).length / 256])).flatten
        ++ ((stripCrops 140 140 16).map
            (fun c => ([170, 11] : List Nat))).flatten) :=
  C1_container_layout (fun _ _ => [170, 11]) 140 140 30 16 (by decide)
    (by decide) (by decide) (by decide) (by decide) (by decide)

theorem stripCrops_getElem? (width height F : Nat) {i : Nat}
    (h : i < (height + F - 1) / F) :
    (stripCrops width height F)[i]? =
      some ⟨0, i * F, width, min (height - i * F) F⟩ := by
  simp [stripCrops, List.getElem?_map, List.getElem?_range, h]

theorem full_strip {height F : Nat} (hF : 0 < F) {i : Nat}
    (h : i + 1 < (height + F - 1) / F) : min (height - i * F) F = F := by
  have h3 : (i + 1 + 1) * F ≤ height + F - 1 := (Nat.le_div_iff_mul_le hF).mp h
  have h4 : i * F + 2 * F ≤ height + F - 1 := by
    calc i * F + 2 * F = (i + 1 + 1) * F := by ring
      _ ≤ height + F - 1 := h3
  apply Nat.min_eq_right
  omega

theorem last_strip {height F : Nat} (hF : 0 < F) (hH : 0 < height) :
    min (height - ((height + F - 1) / F - 1) * F) F =
      if height % F = 0 then F else height % F := by
  have hub : (height + F - 1) / F * F ≤ height + F - 1 :=
    Nat.div_mul_le_self _ _
  have hle : height ≤ (height + F - 1) / F * F := by
    by_contra hlt
    push_neg at hlt
    have h2 : ((height + F - 1) / F + 1) * F ≤ height + F - 1 := by
      have h2a : (height + F - 1) / F * F + F ≤ height + F - 1 := by omega
      calc ((height + F - 1) / F + 1) * F
          = (height + F - 1) / F * F + F := by ring
        _ ≤ height + F - 1 := h2a
    have h4 : (height + F - 1) / F + 1 ≤ (height + F - 1) / F :=
      (Nat.le_div_iff_mul_le hF).mpr h2
    omega
  have hpos : 0 < (height + F - 1) / F := by
    have h5 : 1 * F ≤ height + F - 1 := by omega
    exact (Nat.le_div_iff_mul_le hF).mpr h5
  have hsub : ((height + F - 1) / F - 1) * F = (height + F - 1) / F * F - F :=
    Nat.sub_one_mul _ _
  have hlb : ((height + F - 1) / F - 1) * F < height := by omega
  have hkle : ((height + F - 1) / F - 1) * F ≤ height := le_of_lt hlb
  have hdF : height - ((height + F - 1) / F - 1) * F ≤ F := by omega
  have hdpos : 0 < height - ((height + F - 1) / F - 1) * F := by omega
  have hmod : (height - ((height + F - 1) / F - 1) * F) % F = height % F := by
    rw [mul_comm]
    exact Nat.sub_mul_mod (by rw [mul_comm]; exact hkle)
  rw [Nat.min_eq_left hdF]
  by_cases hr : height % F = 0
  · rw [if_pos hr]
    have hdvd : F ∣ height - ((height + F - 1) / F - 1) * F :=
      Nat.dvd_of_mod_eq_zero (by rw [hmod, hr])
    have hge : F ≤ height - ((height + F - 1) / F - 1) * F :=
      Nat.le_of_dvd hdpos hdvd
    omega
  · rw [if_neg hr]
    have hlt2 : height - ((height + F - 1) / F - 1) * F < F := by
      rcases Nat.eq_or_lt_of_le hdF with he | hl
      · exact absurd (by rw [← hmod, he, Nat.mod_self]) hr
      · exact hl
    rw [← hmod, Nat.mod_eq_of_lt hlt2]

/-- C2: For an image of height `H` and fragment height `F`, the encoder
produces exactly `ceil(H / F) = (H + F - 1) / F` strips, iterated top to
bottom (strip `i` starts at row `i * F`), each spanning `F` rows except
the final strip, which spans `H mod F` rows (or a full `F` rows when `F`
divides `H`); the width is never split (every crop has `x = 0` and the
full width). -/
theorem C2_strip_structure (width height F : Nat) (hF : 0 < F)
    (hH : 0 < height) :
    (stripCrops width height F).length = (height + F - 1) / F ∧
    (∀ c ∈ stripCrops width height F, c.x = 0 ∧ c.w = width) ∧
    (∀ i, i < (height + F - 1) / F →
      ((stripCrops width height F)[i]?).map Crop.y = some (i * F)) ∧
    (∀ i, i + 1 < (height + F - 1) / F →
      ((stripCrops width height F)[i]?).map Crop.h = some F) ∧
    ((stripCrops width height F)[(height + F - 1) / F - 1]?).map Crop.h =
      some (if height % F = 0 then F else height % F) := by
  refine ⟨by simp [stripCrops], ?_, ?_, ?_, ?_⟩
  · intro c hc
    simp only [stripCrops, List.mem_map, List.mem_range] at hc
    obtain ⟨i, hi, rfl⟩ := hc
    exact ⟨rfl, rfl⟩
  · intro i hi
    rw [stripCrops_getElem? width height F hi]
    rfl
  · intro i hi
    rw [stripCrops_getElem? width height F (by omega)]
    simp [full_strip hF hi]
  · have hpos : 0 < (height + F - 1) / F := by
      have h5 : 1 * F ≤ height + F - 1 := by omega
      exact (Nat.le_div_iff_mul_le hF).mpr h5
    rw [stripCrops_getElem? width height F (by omega)]
    simp [last_strip hF hH]

/-- Witness for C2: a 140×140 image with fragment height 16 yields exactly
9 strips, the 9th (index 8) starting at row 128 and spanning 12 rows. -/
theorem C2_strip_structure_witness :
    (stripCrops 140 140 16).length = 9 ∧
    ((stripCrops 140 140 16)[8]?).map Crop.y = some 128 ∧
    ((stripCrops 140 140 16)[8]?).map Crop.h = some 12 := by
  have h := C2_strip_structure 140 140 16 (by decide) (by decide)
  refine ⟨h.1.trans (by norm_num), ?_, ?_⟩
  · have h2 := h.2.2.1 8 (by norm_num)
    simpa using h2
  · have h2 := h.2.2.2.2
    norm_num at h2
    simpa using h2

/-- C3: For every built container (compression treated as an oracle
returning arbitrary byte sequences), the sum of the per-strip length
entries equals the total byte length of the concatenated strip payloads,
and the length table contains exactly strip-count entries; this holds for
every quality value in `1..100`, including the boundaries (the container
below is built, with all header fields present, for any such quality). -/
theorem C3_length_table (save' : Crop → Nat → List Nat)
    (width height quality F : Nat) (hF : 0 < F)
    (hq1 : 1 ≤ quality) (hq2 : quality ≤ 100)
    (hw : width < 65536) (hh : height < 65536)
    (hp : (height + F - 1) / F < 65536) (hFb : F < 65536)
    (hlen : ∀ c ∈ stripCrops width height F, (save' c quality).length < 65536) :
    convertImageToSJPG (fun c q => some (save' c q)) width height quality F =
      some (strBytes "_SJPG__"
        ++ ([0] ++ strBytes "V1.00" ++ [0])
        ++ [width % 256, width / 256]
        ++ [height % 256, height / 256]
        ++ [((height + F - 1) / F) % 256, ((height + F - 1) / F) / 256]
        ++ [F % 256, F / 256]
        ++ (((stripCrops width height F).map
              (fun c => save' c quality)).map List.length |>.map
            (fun n => [n % 256, n / 256])).flatten
        ++ ((stripCrops width height F).map (fun c => save' c quality)).flatten) ∧
    (((stripCrops width height F).map (fun c => save' c quality)).map
        List.length).sum =
      (((stripCrops width height F).map (fun c => save' c quality)).flatten).length ∧
    (((stripCrops width height F).map (fun c => save' c quality)).map
        List.length).length =
      (height + F - 1) / F := by
  refine ⟨?_, ?_, ?_⟩
  · have h := convertImageToSJPG_layout save' width height quality F hF hw hh
      hp hFb hlen
    rw [h]
    simp [List.map_map, Function.comp]
    rfl
  · rw [List.length_flatten]
  · simp [stripCrops]

/-- Witness for C3 at both quality boundaries 1 and 100, on a 140×140
image with fragment height 16 and a constant three-byte oracle. -/
theorem C3_length_table_witness :
    ((((stripCrops 140 140 16).map
        (fun c => (fun (_ : Crop) (_ : Nat) => [1, 2, 3]) c 1)).map
      List.length).sum =
      (((stripCrops 140 140 16).map
        (fun c => (fun (_ : Crop) (_ : Nat) => [1, 2, 3]) c 1)).flatten).length) ∧
    ((((stripCrops 140 140 16).map
        (fun c => (fun (_ : Crop) (_ : Nat) => [1, 2, 3]) c 100)).map
      List.length).length = (140 + 16 - 1) / 16) :=
  ⟨(C3_length_table (fun _ _ => [1, 2, 3]) 140 140 1 16 (by decide) (by decide)
      (by decide) (by decide) (by decide) (by decide) (by decide)
      (by decide)).2.1,
   (C3_length_table (fun _ _ => [1, 2, 3]) 140 140 100 16 (by decide)
      (by decide) (by decide) (by decide) (by decide) (by decide) (by decide)
      (by decide)).2.2⟩

theorem hexDigit_mem : ∀ n, n < 16 → hexDigit n ∈ HEX_ALPHABET := by decide

theorem hexVal_hexDigit : ∀ n, n < 16 → hexVal (hexDigit n) = n := by decide

theorem hexEncode_length (bs : List Nat) :
    (hexEncode bs).length = 2 * bs.length := by
  induction bs with
  | nil => rfl
  | cons b r ih =>
    simp only [hexEncode, List.flatMap_cons] at ih ⊢
    simp only [List.length_append, List.length_cons, List.length_nil, ih]
    omega

theorem hexDecode_hexEncode {bs : List Nat} (hb : ∀ b ∈ bs, b < 256) :
    hexDecode (hexEncode bs) = bs := by
  induction bs with
  | nil => rfl
  | cons b r ih =>
    have hblt : b < 256 := hb b (by simp)
    simp only [hexEncode, List.flatMap_cons, List.cons_append, List.nil_append]
    rw [hexDecode]
    rw [hexVal_hexDigit _ (by omega), hexVal_hexDigit _ (by omega)]
    have hr := ih (fun x hx => hb x (by simp [hx]))
    simp only [hexEncode] at hr
    rw [hr]
    congr 1
    omega

/-- C4: For every byte sequence, `_encodeSnapshot` returns a lowercase
hexadecimal string over the alphabet `0-9a-f` whose length is exactly
twice the input byte length, and hex-decoding it reconstructs the
original byte sequence byte for byte. -/
theorem C4_hex_roundtrip (bs : List Nat) (hb : ∀ b ∈ bs, b < 256) :
    encodeSnapshot (some bs) = some (hexEncode bs) ∧
    (hexEncode bs).length = 2 * bs.length ∧
    (∀ c ∈ hexEncode bs, c ∈ HEX_ALPHABET) ∧
    hexDecode (hexEncode bs) = bs := by
  refine ⟨rfl, hexEncode_length bs, ?_, hexDecode_hexEncode hb⟩
  intro c hc
  simp only [hexEncode, List.mem_flatMap] at hc
  obtain ⟨b, hbmem, hcmem⟩ := hc
  have hblt : b < 256 := hb b hbmem
  simp only [List.mem_cons, List.not_mem_nil, or_false] at hcmem
  rcases hcmem with rfl | rfl
  · exact hexDigit_mem _ (by omega)
  · exact hexDigit_mem _ (by omega)

/-- Witness for C4 on the bytes `[0, 171, 255]`. -/
theorem C4_hex_roundtrip_witness :
    encodeSnapshot (some [0, 171, 255]) = some (hexEncode [0, 171, 255]) ∧
    (hexEncode [0, 171, 255]).length = 2 * ([0, 171, 255] : List Nat).length ∧
    (∀ c ∈ hexEncode [0, 171, 255], c ∈ HEX_ALPHABET) ∧
    hexDecode (hexEncode [0, 171, 255]) = [0, 171, 255] :=
  C4_hex_roundtrip [0, 171, 255] (by decide)

theorem chunksOf_flatten {k : Nat} (hk : 0 < k) (s : List Char) :
    (chunksOf k s).flatten = s := by
  generalize hn : s.length = n
  induction n using Nat.strong_induction_on generalizing s with
  | _ n ih =>
    cases s with
    | nil => rw [chunksOf]; rfl
    | cons c rest =>
      rw [chunksOf, if_neg (by omega)]
      simp only [List.flatten_cons]
      have hlen : ((c :: rest).drop k).length < n := by
        subst hn
        simp only [List.length_drop, List.length_cons]
        omega
      rw [ih _ hlen _ rfl]
      exact List.take_append_drop k (c :: rest)

theorem chunksOf_le {k : Nat} (hk : 0 < k) (s : List Char) :
    ∀ c ∈ chunksOf k s, c.length ≤ k ∧ c ≠ [] := by
  generalize hn : s.length = n
  induction n using Nat.strong_induction_on generalizing s with
  | _ n ih =>
    cases s with
    | nil => rw [chunksOf]; intro c hc; cases hc
    | cons c rest =>
      rw [chunksOf, if_neg (by omega)]
      intro d hd
      rcases hd with _ | ⟨_, hd⟩
      · constructor
        · simp only [List.length_take]
          omega
        · simp only [ne_eq, List.take_eq_nil_iff, List.cons_ne_nil, or_false]
          omega
      · have hlen : ((c :: rest).drop k).length < n := by
          subst hn
          simp only [List.length_drop, List.length_cons]
          omega
        exact ih _ hlen _ rfl d hd

theorem chunksOf_ne_nil {k : Nat} {s : List Char} (hk : 0 < k)
    (hs : s ≠ []) : chunksOf k s ≠ [] := by
  cases s with
  | nil => exact absurd rfl hs
  | cons c rest =>
    rw [chunksOf, if_neg (by omega)]
    simp

theorem chunksOf_dropLast {k : Nat} (hk : 0 < k) (s : List Char) :
    ∀ c ∈ (chunksOf k s).dropLast, c.length = k := by
  generalize hn : s.length = n
  induction n using Nat.strong_induction_on generalizing s with
  | _ n ih =>
    cases s with
    | nil => rw [chunksOf]; intro c hc; cases hc
    | cons c rest =>
      rw [chunksOf, if_neg (by omega)]
      by_cases hrest : (c :: rest).drop k = []
      · rw [hrest, chunksOf]
        intro d hd
        cases hd
      · rw [List.dropLast_cons_of_ne_nil (chunksOf_ne_nil hk hrest)]
        intro d hd
        rcases hd with _ | ⟨_, hd⟩
        · have hklen : k < (c :: rest).length := by
            by_contra hc2
            push_neg at hc2
            exact hrest (List.drop_eq_nil_of_le hc2)
          simp only [List.length_take]
          omega
        · have hlen : ((c :: rest).drop k).length < n := by
            subst hn
            simp only [List.length_drop, List.length_cons]
            omega
          exact ih _ hlen _ rfl d hd

/-- C5: For every hex string and chunk size 80, `_convertSnapshotToGcode`
returns, in order: the line `"; thumbnail begin"`, the line `"W221"`, one
line per 80-character chunk consisting of `"W220 "` followed by the chunk
(chunks before the last are exactly 80 characters, the last may be
shorter), the line `"W222"`, the line `"; thumbnail end"`, and one blank
line; stripping the 5-character `"W220 "` prefixes from the data lines
and concatenating them in order reconstructs exactly the input string. -/
theorem C5_thumbnail_block (s : List Char) :
    convertSnapshotToGcode (some s) 80 =
      .ok ([str "; thumbnail begin", str "W221"]
        ++ (chunksOf 80 s).map (fun c => str "W220 " ++ c)
        ++ [str "W222", str "; thumbnail end", str ""]) ∧
    (∀ c ∈ (chunksOf 80 s).dropLast, c.length = 80) ∧
    (∀ c ∈ chunksOf 80 s, c.length ≤ 80 ∧ c ≠ []) ∧
    ((chunksOf 80 s).map (fun c => (str "W220 " ++ c).drop 5)).flatten = s := by
  refine ⟨rfl, chunksOf_dropLast (by norm_num) s, chunksOf_le (by norm_num) s, ?_⟩
  have h5 : ∀ c : List Char, (str "W220 " ++ c).drop 5 = c := fun c =>
    List.drop_left (str "W220 ") c
  simp only [h5, List.map_id_fun', List.map_id']
  exact chunksOf_flatten (by norm_num) s

theorem pyIndex_append [DecidableEq α] {a : α} {pre : List α}
    (hnot : ∀ b ∈ pre, b ≠ a) (rest : List α) :
    pyIndex a (pre ++ rest) = pre.length + pyIndex a rest := by
  induction pre with
  | nil => simp [pyIndex]
  | cons b pr ih =>
    simp only [List.cons_append, pyIndex, List.length_cons, List.append_eq]
    rw [if_neg (hnot b (by simp)), ih (fun x hx => hnot x (by simp [hx]))]
    omega

theorem pyInsert_append_right (fixed rest : List α) (k : Nat) (x : α) :
    pyInsert (fixed.length + k) x (fixed ++ rest) = fixed ++ pyInsert k x rest := by
  unfold pyInsert
  rw [List.take_append, List.drop_append]
  simp [List.append_assoc]

theorem pySpliceAt_append_right (fixed rest : List α) (k : Nat)
    (xs : List α) :
    pySpliceAt (fixed.length + k) xs (fixed ++ rest) =
      fixed ++ pySpliceAt k xs rest := by
  unfold pySpliceAt
  rw [List.take_append, List.drop_append]
  simp [List.append_assoc]

theorem set_append_add (fixed rest : List α) (k : Nat) (x : α) :
    (fixed ++ rest).set (fixed.length + k) x = fixed ++ rest.set k x := by
  rw [List.set_append_right _ _ (Nat.le_add_right _ _)]
  rw [Nat.add_sub_cancel_left]

theorem getElem?_append_mid (pre : List α) (x : α) (post : List α) :
    (pre ++ x :: post)[pre.length]? = some x := by
  rw [List.getElem?_append_right (le_refl _)]
  simp

theorem getElem_append_mid (pre : List α) (x : α) (post : List α)
    (h : pre.length < (pre ++ x :: post).length) :
    (pre ++ x :: post)[pre.length] = x := by
  have h2 := getElem?_append_mid pre x post
  rwa [List.getElem?_eq_getElem h, Option.some_inj] at h2

/-- A successful `filamentStep` on a line carrying the filament marker
never touches a marker-free prefix of the line list: the content lookup
`lines.index(line)` lands past it, so the replacement and both inserts
stay past it too. -/
theorem filamentStep_fixed {s : Option (List Char × List Char)}
    {line : List Char} {fixed rest lines1 : List (List Char)}
    (hfix : ∀ l ∈ fixed, strStartsWith l FILAMENT_MARK = false)
    (hf : strStartsWith line FILAMENT_MARK = true)
    (h : filamentStep s line (fixed ++ rest) = .ok lines1) :
    ∃ rest1, lines1 = fixed ++ rest1 := by
  have hnot : ∀ b ∈ fixed, b ≠ line := by
    intro b hb heq
    rw [heq] at hb
    rw [hfix line hb] at hf
    cases hf
  unfold filamentStep at h
  rw [if_pos hf] at h
  dsimp only at h
  rw [pyIndex_append hnot rest] at h
  split at h
  · cases h
  · split at h
    · cases h
    · split at h
      · cases h
      · cases h
        rw [set_append_add, pyInsert_append_right, pyInsert_append_right]
        exact ⟨_, rfl⟩

/-- The core prefix invariant of the line-scanning loop: once the leading
`fixed` lines carry neither marker, no later mutation of the loop (which
always re-derives its target position by content lookup) can touch them,
so a successful scan returns `fixed` followed by something. -/
theorem scanLines_preserve (s : Option (List Char × List Char))
    (g : List (List Char)) (fixed : List (List Char))
    (hfix : ∀ l ∈ fixed, strStartsWith l FILAMENT_MARK = false ∧
      strStartsWith l CURA_MARK = false) :
    ∀ (m i : Nat) (rest res : List (List Char)),
    2 * countFil (fixed ++ rest) + ((fixed ++ rest).length - i) = m →
    scanLines s g i (fixed ++ rest) = .ok res →
    ∃ rest2, res = fixed ++ rest2 := by
  intro m
  induction m using Nat.strong_induction_on with
  | _ m ih =>
    intro i rest res hm hscan
    by_cases hi : i < (fixed ++ rest).length
    · by_cases hf : strStartsWith (fixed ++ rest)[i] FILAMENT_MARK = true
      · cases hstep : filamentStep s (fixed ++ rest)[i] (fixed ++ rest) with
        | error e =>
          rw [scanLines_step_err hi hstep] at hscan
          cases hscan
        | ok lines1 =>
          obtain ⟨rest1, rfl⟩ :=
            filamentStep_fixed (fun l hl => (hfix l hl).1) hf hstep
          rw [scanLines_step_fil hi hf hstep] at hscan
          rcases filamentStep_ok (List.getElem_mem hi) hstep with
            ⟨hf2, _⟩ | ⟨_, hlen, hcnt⟩
          · rw [hf2] at hf; cases hf
          · refine ih (2 * countFil (fixed ++ rest1) +
                ((fixed ++ rest1).length - (i + 1))) ?_ (i + 1) rest1 res rfl
                hscan
            omega
      · rw [Bool.not_eq_true] at hf
        by_cases hc : strStartsWith (fixed ++ rest)[i] CURA_MARK = true
        · rw [scanLines_step_cura hi hc] at hscan
          have hnot : ∀ b ∈ fixed, b ≠ (fixed ++ rest)[i] := by
            intro b hb heq
            rw [heq] at hb
            rw [(hfix _ hb).2] at hc
            cases hc
          injection hscan with h2
          rw [pyIndex_append hnot rest] at h2
          rw [show fixed.length + pyIndex (fixed ++ rest)[i] rest + 1 =
            fixed.length + (pyIndex (fixed ++ rest)[i] rest + 1) from by omega,
            pySpliceAt_append_right] at h2
          exact ⟨_, h2.symm⟩
        · rw [Bool.not_eq_true] at hc
          rw [scanLines_step_skip hi hf hc] at hscan
          exact ih (2 * countFil (fixed ++ rest) +
              ((fixed ++ rest).length - (i + 1)))
            (by omega) (i + 1) rest res rfl hscan
    · rw [scanLines_stop (by omega)] at hscan
      injection hscan with h2
      exact ⟨rest, h2.symm⟩

/-- Scanning skips over lines that carry neither marker without touching
the list. -/
theorem scanLines_skip (s : Option (List Char × List Char))
    (g : List (List Char)) :
    ∀ (n i : Nat) (lines : List (List Char)),
    (∀ p (hp : p < lines.length), i ≤ p → p < i + n →
      strStartsWith lines[p] FILAMENT_MARK = false ∧
      strStartsWith lines[p] CURA_MARK = false) →
    scanLines s g i lines = scanLines s g (i + n) lines := by
  intro n
  induction n with
  | zero => intro i lines hcl; rfl
  | succ n ihn =>
    intro i lines hcl
    by_cases hi : i < lines.length
    · have hc := hcl i hi (le_refl i) (by omega)
      rw [scanLines_step_skip hi hc.1 hc.2]
      rw [ihn (i + 1) lines (fun p hp hp1 hp2 => hcl p hp (by omega) (by omega))]
      congr 1
      omega
    · rw [scanLines_stop (by omega), scanLines_stop (by omega)]

/-- `true` iff the call returned normally (no exception escaped). -/
def returnsNormally : Except PyErr (List (List Char)) → Bool
  | .ok _ => true
  | .error _ => false

theorem executeLoop_stop {s : Option (List Char × List Char)}
    {g : List (List Char)} {i : Nat} {data : List (List Char)}
    (h : data.length ≤ i) : executeLoop s g i data = .ok data := by
  rw [executeLoop, dif_neg (by omega)]

theorem executeLoop_step_ok {s : Option (List Char × List Char)}
    {g : List (List Char)} {i : Nat} {data nl : List (List Char)}
    (h : i < data.length)
    (hscan : scanLines s g 0 (splitNl data[i]) = .ok nl) :
    executeLoop s g i data =
      executeLoop s g (i + 1) (data.set (pyIndex data[i] data) (joinNl nl)) := by
  rw [executeLoop, dif_pos h]
  dsimp only
  split
  · next e heq => rw [hscan] at heq; cases heq
  · next nl2 heq =>
    rw [hscan] at heq
    injection heq with h2
    subst h2
    rfl

theorem executeLoop_step_err {s : Option (List Char × List Char)}
    {g : List (List Char)} {i : Nat} {data : List (List Char)} {e : PyErr}
    (h : i < data.length)
    (hscan : scanLines s g 0 (splitNl data[i]) = .error e) :
    executeLoop s g i data = .error e := by
  rw [executeLoop, dif_pos h]
  dsimp only
  split
  · next e2 heq =>
    rw [hscan] at heq
    injection heq with h2
    subst h2
    rfl
  · next nl2 heq => rw [hscan] at heq; cases heq

/-- `filamentStep` on the concrete marker line `";Filament used: 12.500m"`
with settings available: parse `12.500`, convert to `12500.00` mm, replace
the line at its first occurrence, insert the material and infill lines
before it. -/
theorem filamentStep_12500 (mat inf : List Char) (lines : List (List Char)) :
    filamentStep (some (mat, inf)) (str ";Filament used: 12.500m") lines =
      .ok (pyInsert (pyIndex (str ";Filament used: 12.500m") lines)
        (str ";InfillDensity:" ++ inf)
        (pyInsert (pyIndex (str ";Filament used: 12.500m") lines)
          (str ";FilamentType:" ++ mat)
          (lines.set (pyIndex (str ";Filament used: 12.500m") lines)
            (str ";FilamentUsed:12500.00")))) := rfl

/-- C6 (amended): within a layer segment, a filament-usage marker line
with value `12.500m` that is preceded by no generator-signature line and
by no other marker line is replaced by `";FilamentUsed:12500.00"` with
the infill-density line and the material-name line inserted immediately
before it, in that relative order; the rest of the scan leaves those
three lines and everything before them in place. -/
theorem C6_usage_line_injection (material infill : List Char)
    (g : List (List Char)) (pre post res : List (List Char))
    (hpre : ∀ l ∈ pre, strStartsWith l FILAMENT_MARK = false ∧
      strStartsWith l CURA_MARK = false)
    (hscan : scanLines (some (material, infill)) g 0
      (pre ++ str ";Filament used: 12.500m" :: post) = .ok res) :
    ∃ rest, res = pre ++ (str ";InfillDensity:" ++ infill) ::
      (str ";FilamentType:" ++ material) ::
      (str ";FilamentUsed:12500.00") :: rest := by
  have hnot : ∀ b ∈ pre, b ≠ str ";Filament used: 12.500m" := by
    intro b hb heq
    have h2 := (hpre b hb).1
    rw [heq] at h2
    cases h2
  have hi : pre.length < (pre ++ str ";Filament used: 12.500m" :: post).length := by
    simp
  have hline : (pre ++ str ";Filament used: 12.500m" :: post)[pre.length] =
      str ";Filament used: 12.500m" := getElem_append_mid _ _ _ hi
  rw [scanLines_skip (some (material, infill)) g pre.length 0 _
    (fun p hp hp1 hp2 => by
      have hplt : p < pre.length := by omega
      have hgp : (pre ++ str ";Filament used: 12.500m" :: post)[p] = pre[p] := by
        have h3 : (pre ++ str ";Filament used: 12.500m" :: post)[p]? = pre[p]? := by
          rw [List.getElem?_append_left hplt]
        rwa [List.getElem?_eq_getElem hp, List.getElem?_eq_getElem hplt,
          Option.some_inj] at h3
      rw [hgp]
      exact hpre pre[p] (List.getElem_mem hplt)), Nat.zero_add] at hscan
  have hk : pyIndex (str ";Filament used: 12.500m")
      (pre ++ str ";Filament used: 12.500m" :: post) = pre.length := by
    rw [pyIndex_append hnot]
    simp [pyIndex]
  have hstep := filamentStep_12500 material infill
    (pre ++ str ";Filament used: 12.500m" :: post)
  rw [hk] at hstep
  have hset : (pre ++ str ";Filament used: 12.500m" :: post).set pre.length
      (str ";FilamentUsed:12500.00") =
      pre ++ (str ";FilamentUsed:12500.00") :: post := by
    have h4 := set_append_add pre (str ";Filament used: 12.500m" :: post) 0
      (str ";FilamentUsed:12500.00")
    simpa using h4
  rw [hset] at hstep
  have hins1 : pyInsert pre.length (str ";FilamentType:" ++ material)
      (pre ++ (str ";FilamentUsed:12500.00") :: post) =
      pre ++ (str ";FilamentType:" ++ material) ::
        (str ";FilamentUsed:12500.00") :: post := by
    have h4 := pyInsert_append_right pre
      ((str ";FilamentUsed:12500.00") :: post) 0 (str ";FilamentType:" ++ material)
    simpa [pyInsert] using h4
  rw [hins1] at hstep
  have hins2 : pyInsert pre.length (str ";InfillDensity:" ++ infill)
      (pre ++ (str ";FilamentType:" ++ material) ::
        (str ";FilamentUsed:12500.00") :: post) =
      pre ++ (str ";InfillDensity:" ++ infill) ::
        (str ";FilamentType:" ++ material) ::
        (str ";FilamentUsed:12500.00") :: post := by
    have h4 := pyInsert_append_right pre
      ((str ";FilamentType:" ++ material) ::
        (str ";FilamentUsed:12500.00") :: post) 0
      (str ";InfillDensity:" ++ infill)
    simpa [pyInsert] using h4
  rw [hins2] at hstep
  rw [scanLines_step_fil hi (by rw [hline]; rfl) (by rw [hline]; exact hstep)]
    at hscan
  have hfix : ∀ l ∈ pre ++ [str ";InfillDensity:" ++ infill,
      str ";FilamentType:" ++ material, str ";FilamentUsed:12500.00"],
      strStartsWith l FILAMENT_MARK = false ∧
      strStartsWith l CURA_MARK = false := by
    intro l hl
    rw [List.mem_append] at hl
    rcases hl with hl | hl
    · exact hpre l hl
    · simp only [List.mem_cons, List.not_mem_nil, or_false] at hl
      rcases hl with rfl | rfl | rfl
      · exact ⟨not_fil_infill _, not_cura_infill _⟩
      · exact ⟨not_fil_material _, not_cura_material _⟩
      · exact ⟨not_fil_usage [], not_cura_usage []⟩
  have hpres := scanLines_preserve (some (material, infill)) g
    (pre ++ [str ";InfillDensity:" ++ infill,
      str ";FilamentType:" ++ material, str ";FilamentUsed:12500.00"])
    hfix _ (pre.length + 1) post res rfl (by
      have hconv : pre ++ (str ";InfillDensity:" ++ infill) ::
          (str ";FilamentType:" ++ material) ::
          (str ";FilamentUsed:12500.00") :: post =
          (pre ++ [str ";InfillDensity:" ++ infill,
            str ";FilamentType:" ++ material,
            str ";FilamentUsed:12500.00"]) ++ post := by
        simp
      rw [hconv] at hscan
      exact hscan)
  obtain ⟨rest2, hrest2⟩ := hpres
  exact ⟨rest2, by simpa [List.append_assoc] using hrest2⟩

theorem convertSnapshotToGcode_ok (s : List Char) (k : Nat) :
    convertSnapshotToGcode (some s) k =
      .ok ([str "; thumbnail begin", str "W221"]
        ++ (chunksOf k s).map (fun c => str "W220 " ++ c)
        ++ [str "W222", str "; thumbnail end", str ""]) := rfl

/-- Counterexample to C6 as stated: this segment contains the
filament-usage marker line with value `12.500m`, yet the scan output
contains no usage line at all (and the marker line survives unchanged),
because the generator-signature line earlier in the segment makes the
loop `break` before the marker is reached. -/
theorem C6_counterexample :
    scanLines (some (str "PLA", str "20")) [str "; thumbnail begin"] 0
      (splitNl (str ";Generated with Cura\nG1 X0\n;Filament used: 12.500m")) =
      .ok [str ";Generated with Cura", str "; thumbnail begin", str "G1 X0",
        str ";Filament used: 12.500m"] ∧
    ∀ l ∈ [str ";Generated with Cura", str "; thumbnail begin", str "G1 X0",
        str ";Filament used: 12.500m"],
      strStartsWith l (str ";FilamentUsed:") = false := by
  constructor
  · rw [show splitNl
        (str ";Generated with Cura\nG1 X0\n;Filament used: 12.500m") =
        [str ";Generated with Cura", str "G1 X0",
          str ";Filament used: 12.500m"] from rfl]
    rw [scanLines_step_cura (by norm_num) (by decide)]
    rfl
  · decide

theorem scanLines_c6_eval :
    scanLines (some (str "PLA", str "20")) [str "; thumbnail begin"] 0
      [str "G1 X0", str ";Filament used: 12.500m"] =
      .ok [str "G1 X0", str ";InfillDensity:20", str ";FilamentType:PLA",
        str ";FilamentUsed:12500.00"] := by
  rw [scanLines_step_skip (by norm_num) (by decide) (by decide)]
  have hstep : filamentStep (some (str "PLA", str "20"))
      ([str "G1 X0", str ";Filament used: 12.500m"] : List (List Char))[1]
      [str "G1 X0", str ";Filament used: 12.500m"] =
      .ok [str "G1 X0", str ";InfillDensity:20", str ";FilamentType:PLA",
        str ";FilamentUsed:12500.00"] := rfl
  rw [scanLines_step_fil (by norm_num) (by decide) hstep]
  rw [scanLines_step_skip (by norm_num) (by decide) (by decide)]
  rw [scanLines_step_skip (by norm_num) (by decide) (by decide)]
  exact scanLines_stop (by norm_num)

/-- Witness for the amended C6 on the segment
`"G1 X0\n;Filament used: 12.500m"` with material `PLA` and infill `20`. -/
theorem C6_usage_line_injection_witness :
    ∃ rest, ([str "G1 X0", str ";InfillDensity:20", str ";FilamentType:PLA",
        str ";FilamentUsed:12500.00"] : List (List Char)) =
      [str "G1 X0"] ++ (str ";InfillDensity:" ++ str "20") ::
        (str ";FilamentType:" ++ str "PLA") ::
        (str ";FilamentUsed:12500.00") :: rest :=
  C6_usage_line_injection (str "PLA") (str "20") [str "; thumbnail begin"]
    [str "G1 X0"] [] _ (by decide) scanLines_c6_eval

/-- C7 (code bug): when the settings lookup fails, the source only logs —
`material` and `infill_density` stay unbound — and `execute` then runs
the full pipeline anyway; on the first filament-usage marker it evaluates
`f";FilamentType:{material}"` and an `UnboundLocalError`/`NameError`
escapes to the caller instead of the metadata step being skipped. -/
theorem C7_settings_failure_raises :
    execute none (some ()) (fun _ _ => some []) 30
      [str ";Filament used: 12.500m"] = .error .nameError := by
  obtain ⟨bs, hbs⟩ : ∃ bs, convertImageToSJPG (fun _ _ => some [])
      THUMBNAIL_WIDTH THUMBNAIL_HEIGHT 30 16 = some bs := ⟨_, rfl⟩
  unfold execute
  rw [hbs]
  dsimp only [encodeSnapshot]
  rw [convertSnapshotToGcode_ok]
  dsimp only
  apply executeLoop_step_err (by norm_num)
  rw [show ([str ";Filament used: 12.500m"] : List (List Char))[0] =
    str ";Filament used: 12.500m" from rfl]
  rw [show splitNl (str ";Filament used: 12.500m") =
    [str ";Filament used: 12.500m"] from rfl]
  exact scanLines_step_err (by norm_num) rfl

/-- C8 (code bug): when per-strip compression fails,
`_convertImageToSJPG` returns `None`, `_encodeSnapshot` turns the
resulting `TypeError` into `None` again, and `_convertSnapshotToGcode`
then evaluates `len(None)` with no handler: a `TypeError` escapes
`execute` instead of the thumbnail step being skipped. -/
theorem C8_compression_failure_raises :
    execute (some (str "PLA", str "20")) (some ()) (fun _ _ => none) 30
      [str "G1 X0"] = .error .typeError := rfl

/-- Helper: scanning a segment whose lines before the first
generator-signature line carry no marker splices the thumbnail block in
right after that line and stops, leaving the rest untouched. -/
theorem scanLines_generator_stop (s : Option (List Char × List Char))
    (g : List (List Char)) (pre post : List (List Char)) (cura : List Char)
    (hpre : ∀ l ∈ pre, strStartsWith l FILAMENT_MARK = false ∧
      strStartsWith l CURA_MARK = false)
    (hcura : strStartsWith cura CURA_MARK = true) :
    scanLines s g 0 (pre ++ cura :: post) =
      .ok (pre ++ cura :: (g ++ post)) := by
  have hi : pre.length < (pre ++ cura :: post).length := by simp
  have hline : (pre ++ cura :: post)[pre.length] = cura :=
    getElem_append_mid _ _ _ hi
  rw [scanLines_skip s g pre.length 0 _ (fun p hp hp1 hp2 => by
      have hplt : p < pre.length := by omega
      have hgp : (pre ++ cura :: post)[p] = pre[p] := by
        have h3 : (pre ++ cura :: post)[p]? = pre[p]? :=
          List.getElem?_append_left hplt
        rwa [List.getElem?_eq_getElem hp, List.getElem?_eq_getElem hplt,
          Option.some_inj] at h3
      rw [hgp]
      exact hpre pre[p] (List.getElem_mem hplt)), Nat.zero_add]
  rw [scanLines_step_cura hi (by rw [hline]; exact hcura)]
  have hnot : ∀ b ∈ pre, b ≠ cura := by
    intro b hb heq
    have h2 := (hpre b hb).2
    rw [heq, hcura] at h2
    cases h2
  rw [hline, pyIndex_append hnot]
  have hzero : pyIndex cura (cura :: post) = 0 := by
    simp [pyIndex]
  rw [hzero]
  have hsp := pySpliceAt_append_right pre (cura :: post) 1 g
  rw [show pre.length + 0 + 1 = pre.length + 1 from by omega, hsp]
  have hone : pySpliceAt 1 g (cura :: post) = cura :: (g ++ post) := by
    simp [pySpliceAt]
  rw [hone]

/-- C9 (amended): both marker checks run in one pass per segment; the
generator-signature match splices the thumbnail block right after the
first generator line and then stops the scan of the whole segment, so
everything after that line — filament-usage markers included — is left
untouched. -/
theorem C9_generator_break (s : Option (List Char × List Char))
    (g : List (List Char)) (pre post : List (List Char)) (cura : List Char)
    (hpre : ∀ l ∈ pre, strStartsWith l FILAMENT_MARK = false ∧
      strStartsWith l CURA_MARK = false)
    (hcura : strStartsWith cura CURA_MARK = true) :
    scanLines s g 0 (pre ++ cura :: post) =
      .ok (pre ++ cura :: (g ++ post)) :=
  scanLines_generator_stop s g pre post cura hpre hcura

/-- Counterexample to C9 as stated: a filament-usage marker line occurring
after a generator-signature line in the same segment is not processed —
the scan output keeps the marker line verbatim and contains no usage
line. -/
theorem C9_counterexample :
    scanLines (some (str "PLA", str "20")) [str "W221"] 0
      (splitNl (str ";Generated with Cura\n;Filament used: 12.500m")) =
      .ok [str ";Generated with Cura", str "W221",
        str ";Filament used: 12.500m"] ∧
    ∀ l ∈ [str ";Generated with Cura", str "W221",
        str ";Filament used: 12.500m"],
      strStartsWith l (str ";FilamentUsed:") = false := by
  constructor
  · rw [show splitNl (str ";Generated with Cura\n;Filament used: 12.500m") =
      [str ";Generated with Cura", str ";Filament used: 12.500m"] from rfl]
    rw [scanLines_step_cura (by norm_num) (by decide)]
    rfl
  · decide

/-- Witness for the amended C9. -/
theorem C9_generator_break_witness :
    scanLines (some (str "PLA", str "20")) [str "W221"] 0
      ([] ++ (str ";Generated with Cura") :: [str "G1 X1"]) =
      .ok ([] ++ (str ";Generated with Cura") ::
        ([str "W221"] ++ [str "G1 X1"])) :=
  C9_generator_break (some (str "PLA", str "20")) [str "W221"] [] [str "G1 X1"]
    (str ";Generated with Cura") (by decide) (by decide)

/-- C10 (amended): an unparseable filament-usage amount (such as `N/A`)
makes `float(...)` raise a `ValueError` that nothing in `execute`
catches — provided the scan actually reaches the line: the thumbnail
pipeline ran (snapshot captured, every strip compressed) and no
generator-signature line precedes the bad line in its segment. -/
theorem C10_unparseable_amount_raises (mat inf : List Char)
    (save' : Crop → Nat → List Nat) (quality : Nat)
    (pre post : List (List Char)) (seg : List Char)
    (hsplit : splitNl seg = pre ++ str ";Filament used: N/A" :: post)
    (hpre : ∀ l ∈ pre, strStartsWith l FILAMENT_MARK = false ∧
      strStartsWith l CURA_MARK = false)
    (hlen : ∀ c ∈ stripCrops 140 140 16, (save' c quality).length < 65536) :
    execute (some (mat, inf)) (some ()) (fun c q => some (save' c q)) quality
      [seg] = .error .valueError := by
  have hbs := convertImageToSJPG_layout save' 140 140 quality 16 (by norm_num)
    (by norm_num) (by norm_num) (by norm_num) (by norm_num) hlen
  unfold execute
  rw [show THUMBNAIL_WIDTH = 140 from rfl, show THUMBNAIL_HEIGHT = 140 from rfl]
  rw [hbs]
  dsimp only [encodeSnapshot]
  rw [convertSnapshotToGcode_ok]
  dsimp only
  apply executeLoop_step_err (by norm_num)
  rw [show ([seg] : List (List Char))[0] = seg from rfl, hsplit]
  rw [scanLines_skip _ _ pre.length 0 _ (fun p hp hp1 hp2 => by
      have hplt : p < pre.length := by omega
      have hgp : (pre ++ str ";Filament used: N/A" :: post)[p] = pre[p] := by
        have h3 : (pre ++ str ";Filament used: N/A" :: post)[p]? = pre[p]? :=
          List.getElem?_append_left hplt
        rwa [List.getElem?_eq_getElem hp, List.getElem?_eq_getElem hplt,
          Option.some_inj] at h3
      rw [hgp]
      exact hpre pre[p] (List.getElem_mem hplt)), Nat.zero_add]
  have hi : pre.length < (pre ++ str ";Filament used: N/A" :: post).length := by
    simp
  have hline : (pre ++ str ";Filament used: N/A" :: post)[pre.length] =
      str ";Filament used: N/A" := getElem_append_mid _ _ _ hi
  apply scanLines_step_err hi
  rw [hline]
  rfl

/-- Counterexample to C10 as stated: the segment contains the line
`";Filament used: N/A"`, yet `execute` returns normally — a
generator-signature line precedes it, so the scan `break`s before the
float conversion is ever attempted. -/
theorem C10_counterexample :
    returnsNormally (execute (some (str "PLA", str "20")) (some ())
      (fun _ _ => some []) 30
      [str ";Generated with Cura\n;Filament used: N/A"]) = true := by
  obtain ⟨bs, hbs⟩ : ∃ bs, convertImageToSJPG (fun _ _ => some [])
      THUMBNAIL_WIDTH THUMBNAIL_HEIGHT 30 16 = some bs := ⟨_, rfl⟩
  unfold execute
  rw [hbs]
  dsimp only [encodeSnapshot]
  rw [convertSnapshotToGcode_ok]
  dsimp only
  have hscan := scanLines_generator_stop (some (str "PLA", str "20"))
    ([str "; thumbnail begin", str "W221"]
      ++ (chunksOf 80 (hexEncode bs)).map (fun c => str "W220 " ++ c)
      ++ [str "W222", str "; thumbnail end", str ""])
    [] [str ";Filament used: N/A"] (str ";Generated with Cura")
    (by simp) (by decide)
  rw [executeLoop_step_ok (by norm_num) hscan]
  rw [executeLoop_stop (by simp)]
  rfl

/-- Witness for the amended C10 on the single-line segment
`";Filament used: N/A"`. -/
theorem C10_unparseable_amount_raises_witness :
    execute (some (str "PLA", str "20")) (some ())
      (fun c q => some ((fun (_ : Crop) (_ : Nat) => ([] : List Nat)) c q)) 30
      [str ";Filament used: N/A"] = .error .valueError :=
  C10_unparseable_amount_raises (str "PLA") (str "20") (fun _ _ => []) 30
    [] [] (str ";Filament used: N/A") rfl (by decide) (by decide)
